import Mathlib

/-!
Verification of the cockpit-tools account-management front-end.

This file gives a shallow embedding of the pure data-derivation layer of the
repository — the shared numeric parse utilities, the credit-metric and
presentation builders of `useCodexAccountStore.ts`, the account-list sort and
tag-grouping logic of the Codex accounts page, and the OAuth device-flow
orchestration state of `useProviderAccountsPage` — and proves the documented
properties about them.

Modelling conventions:
* A JavaScript `number` is modelled as `JSNum`: either an exact rational
  (finite values) or `nonfinite` (`NaN` / `±Infinity`); the sources only ever
  distinguish non-finite values through `Number.isFinite`.
* `null`/`undefined` slots are modelled with `Option`.
* Functions imported by the sources from modules that are external to the
  embedded code (plan-name normalizers, credit summaries, formatters, the
  translation function `t`) are taken as parameters, so theorems hold for
  every implementation of those collaborators.
-/

namespace CockpitTools

/-- A JavaScript `number`: a finite value (modelled exactly as a rational) or
a non-finite value (`NaN`, `Infinity`, `-Infinity`). -/
inductive JSNum where
  | fin (q : ℚ)
  | nonfinite
  deriving DecidableEq, Repr

/-- JavaScript `Math.round` on a finite number: round half towards `+∞`. -/
def jsRound (q : ℚ) : ℤ := ⌊q + 1/2⌋

/-- JavaScript `String.prototype.trim()`: strip leading and trailing
whitespace.  Modelled over the character list (Lean's own `String.trim` is
not kernel-reducible). -/
def jsTrim (s : String) : String :=
  ⟨((s.data.dropWhile Char.isWhitespace).reverse.dropWhile
      Char.isWhitespace).reverse⟩

/-- JavaScript `String.prototype.toLowerCase()`, modelled over the character
list. -/
def jsToLower (s : String) : String := ⟨s.data.map Char.toLower⟩

/-! ### Shared parse utilities (`utils/parse`, the cross-platform helpers) -/

/-- `clampPercent` from the shared parse utilities: `null`/non-finite input
gives `null`; otherwise round and clamp into `[0, 100]`. -/
def clampPercent (value : Option JSNum) : Option ℚ :=
  match value with
  | none => none
  | some .nonfinite => none
  | some (.fin q) =>
      if q < 0 then some 0
      else if q > 100 then some 100
      else some ((jsRound q : ℤ) : ℚ)

/-- A JavaScript value as consumed by the defensive extraction helpers:
string, number, boolean, `null`, `undefined`, array, or plain object
(an ordered field list; lookup takes the first matching key). -/
inductive JSValue where
  | str (s : String)
  | num (n : JSNum)
  | bool (b : Bool)
  | null
  | undef
  | arr (elems : List JSValue)
  | obj (fields : List (String × JSValue))

/-- Property access `value[key]` on a plain object modelled as an ordered
field list. -/
def lookupField : List (String × JSValue) → String → Option JSValue
  | [], _ => none
  | (k, v) :: rest, key => if k = key then some v else lookupField rest key

theorem sizeOf_lookupField {fields : List (String × JSValue)} {key : String}
    {v : JSValue} (h : lookupField fields key = some v) :
    sizeOf v < sizeOf fields := by
  induction fields with
  | nil => simp [lookupField] at h
  | cons kv rest ih =>
      obtain ⟨k, w⟩ := kv
      by_cases hk : k = key
      · simp [lookupField, hk] at h
        subst h
        simp
        omega
      · simp [lookupField, hk] at h
        have := ih h
        simp
        omega

section ParseUtilities

-- `jsParseNumber s` models the JavaScript coercion `Number(s)` restricted to
-- finite results (`none` when the coercion yields `NaN`/`±Infinity`), and
-- `jsDateParse s` models `Date.parse(s)` restricted to finite results; both
-- are host primitives, taken as parameters.
variable (jsParseNumber : String → Option ℚ)
variable (jsDateParse : String → Option ℚ)

/-- `toNumber` from the shared parse utilities: a finite number passes
through; a string is trimmed and coerced via `Number`; everything else is
`null`. -/
def toNumber (v : JSValue) : Option ℚ :=
  match v with
  | .num (.fin q) => some q
  | .str s => jsParseNumber (jsTrim s)
  | _ => none

/-- The seconds/milliseconds disambiguation that `normalizeTimestamp` applies
verbatim to both a numeric input and a string successfully coerced by
`Number`: non-positive gives `null`, values `> 1e12` are taken as milliseconds
and divided by 1000, everything else is floored as seconds. -/
def timestampFromNumber (n : ℚ) : Option ℤ :=
  if n ≤ 0 then none
  else if n > 10 ^ 12 then some ⌊n / 1000⌋
  else some ⌊n⌋

mutual

/-- `normalizeTimestamp` from the shared parse utilities: normalizes seconds,
milliseconds (values `> 1e12` are divided by 1000 and floored), parseable
strings, or a nested record under one of the candidate keys, to a seconds-level
Unix timestamp; `null` for zero/negative/unparseable input. -/
def normalizeTimestamp (v : JSValue) : Option ℤ :=
  match v with
  | .str s =>
      let trimmed := jsTrim s
      if trimmed = "" then none
      else
        match jsParseNumber trimmed with
        | some asNumber => timestampFromNumber asNumber
        | none =>
            match jsDateParse trimmed with
            | some parsed => if parsed > 0 then some ⌊parsed / 1000⌋ else none
            | none => none
  | .obj fields =>
      match toNumber jsParseNumber (.obj fields) with
      | some n => timestampFromNumber n
      | none =>
          tryTimestampKeys fields
            ["seconds", "unixSeconds", "unix", "timestamp", "value"]
  | v =>
      match toNumber jsParseNumber v with
      | some n => timestampFromNumber n
      | none => none
termination_by (sizeOf v, 0)
decreasing_by
  all_goals simp_wf
  exact Prod.Lex.left _ _ (by simp)

/-- The candidate-key loop inside `normalizeTimestamp`'s record branch. -/
def tryTimestampKeys (fields : List (String × JSValue)) :
    List String → Option ℤ
  | [] => none
  | key :: rest =>
      match h : lookupField fields key with
      | some v =>
          match normalizeTimestamp v with
          | some ts => some ts
          | none => tryTimestampKeys fields rest
      | none => tryTimestampKeys fields rest
termination_by keys => (sizeOf fields, keys.length + 1)
decreasing_by
  all_goals simp_wf
  · exact Prod.Lex.left _ _ (sizeOf_lookupField h)
  · exact Prod.Lex.right _ (by omega)
  · exact Prod.Lex.right _ (by omega)

end

end ParseUtilities

/-! ### Credit metrics (`useCodexAccountStore.ts`) -/

/-- `toFiniteNumber` from `useCodexAccountStore.ts`: a finite number passes
through, everything else (`null`, `undefined`, non-finite) becomes `null`. -/
def toFiniteNumber (value : Option JSNum) : Option ℚ :=
  match value with
  | some (.fin q) => some q
  | _ => none

/-- The store-local `clampPercent` of `useCodexAccountStore.ts` (distinct from
the shared nullable one): non-finite gives 0, values `≤ 0` give 0, values
`≥ 100` give 100, otherwise `Math.round`. -/
def clampPercentStore (value : JSNum) : ℚ :=
  match value with
  | .nonfinite => 0
  | .fin q =>
      if q ≤ 0 then 0
      else if q ≥ 100 then 100
      else ((jsRound q : ℤ) : ℚ)

/-- `CreditMetrics` from `useCodexAccountStore.ts`. -/
structure CreditMetrics where
  usedPercent : ℚ
  used : ℚ
  total : ℚ
  left : ℚ
  deriving DecidableEq, Repr

/-- `buildCreditMetrics` from `useCodexAccountStore.ts`. -/
def buildCreditMetrics (used total left : Option JSNum) : CreditMetrics :=
  let safeUsed := toFiniteNumber used
  let safeTotal := toFiniteNumber total
  let safeLeft := toFiniteNumber left
  let usedPercent : ℚ :=
    match safeTotal with
    | some t =>
        if t > 0 then
          match safeUsed with
          | some u => clampPercentStore (.fin (u / t * 100))
          | none =>
              match safeLeft with
              | some l => clampPercentStore (.fin ((t - l) / t * 100))
              | none => 0
        else 0
    | none => 0
  { usedPercent := usedPercent
    used := safeUsed.getD 0
    total := safeTotal.getD 0
    left := safeLeft.getD 0 }

/-! ### Unified presentation shapes (`useCodexAccountStore.ts`) -/

/-- The translation function `t(key, defaultValue)`.  The source also passes
interpolation option records to the external i18n engine; since `t` is opaque
here, those calls are modelled as key + default-value lookups. -/
def Translate : Type := String → String → String

/-- `resetAt` carries either a raw string or a raw numeric timestamp
(`string | number` in the source). -/
inductive ResetAtValue where
  | ofString (s : String)
  | ofNum (q : ℚ)
  deriving DecidableEq, Repr

/-- `UnifiedQuotaMetric` from `useCodexAccountStore.ts`; optional fields
default to `none` where a builder omits them. -/
structure UnifiedQuotaMetric where
  key : String
  label : String
  percentage : ℚ
  quotaClass : String
  valueText : String
  resetText : Option String := none
  resetAt : Option ResetAtValue := none
  used : Option ℚ := none
  total : Option ℚ := none
  left : Option ℚ := none
  deriving DecidableEq, Repr

/-- `UnifiedAccountPresentation` from `useCodexAccountStore.ts`. -/
structure UnifiedAccountPresentation where
  id : String
  displayName : String
  planLabel : String
  planClass : String
  quotaItems : List UnifiedQuotaMetric
  cycleText : Option String := none
  deriving DecidableEq, Repr

/-- `KiroAccountStatus` (`'ok' | 'banned' | 'error'`). -/
inductive KiroAccountStatus where
  | ok
  | banned
  | error
  deriving DecidableEq, Repr

/-- `KiroAccountPresentation` from `useCodexAccountStore.ts` (the Kiro
extension of the unified shape). -/
structure KiroAccountPresentation extends UnifiedAccountPresentation where
  userIdText : String
  signedInWithText : String
  addOnExpiryText : String
  accountStatus : KiroAccountStatus
  accountStatusReason : Option String
  isBanned : Bool
  hasStatusError : Bool

/-- `QuotaPreviewLine` from `useCodexAccountStore.ts`. -/
structure QuotaPreviewLine where
  key : String
  label : String
  percentage : ℚ
  quotaClass : String
  text : String
  deriving DecidableEq, Repr

/-- JavaScript string-or `a || b` where `a : string | undefined`: the empty
string is falsy. -/
def jsOrStr (a : Option String) (b : String) : String :=
  match a with
  | some s => if s = "" then b else s
  | none => b

/-- JavaScript `a || b` on two `string | undefined` values, keeping the
result optional (used for raw-plan fallback chains built from
`x?.trim() || y?.trim()`). -/
def jsOrOpt (a b : Option String) : Option String :=
  match a with
  | some s => if s = "" then b else some s
  | none => b

/-! ### Codex presentation builder -/

/-- The Codex account quota cache (`types/codex`), as read both by the
builder's collaborators and by the accounts-page sort. -/
structure CodexQuota where
  weekly_reset_time : Option ℚ := none
  hourly_reset_time : Option ℚ := none
  weekly_percentage : Option ℚ := none
  hourly_percentage : Option ℚ := none
  deriving DecidableEq, Repr

/-- A Codex account record (the fields read by the embedded code). -/
structure CodexAccount where
  id : String
  email : String
  plan_type : Option String := none
  created_at : ℚ := 0
  tags : Option (List String) := none
  quota : Option CodexQuota := none
  deriving DecidableEq, Repr

/-- A quota window as returned by the external `getCodexQuotaWindows`. -/
structure CodexQuotaWindow where
  id : String
  label : String
  percentage : ℚ
  resetTime : Option String := none
  deriving DecidableEq, Repr

/-- The collaborators `buildCodexAccountPresentation` imports from
`types/codex` (not part of the embedded sources), plus the host number
formatter used by the `${n}%` template strings. -/
structure CodexExternal where
  getCodexPlanDisplayName : Option String → String
  getCodexQuotaClass : ℚ → String
  getCodexQuotaWindows : Option CodexQuota → List CodexQuotaWindow
  formatCodexResetTime : String → Translate → String
  numToString : ℚ → String

/-- `buildCodexAccountPresentation` from `useCodexAccountStore.ts`. -/
def buildCodexAccountPresentation (E : CodexExternal) (account : CodexAccount)
    (t : Translate) : UnifiedAccountPresentation :=
  let normalizedPlan := E.getCodexPlanDisplayName account.plan_type
  let rawPlan := account.plan_type.map jsTrim
  let quotaItems := (E.getCodexQuotaWindows account.quota).map fun w =>
    { key := w.id
      label := w.label
      percentage := w.percentage
      quotaClass := E.getCodexQuotaClass w.percentage
      valueText := E.numToString w.percentage ++ "%"
      resetText := some (match w.resetTime with
        | some rt => if rt = "" then "" else E.formatCodexResetTime rt t
        | none => "")
      resetAt := w.resetTime.map ResetAtValue.ofString }
  { id := account.id
    displayName := account.email
    planLabel := jsOrStr rawPlan normalizedPlan
    planClass := jsToLower normalizedPlan
    quotaItems := quotaItems }

/-! ### GitHub Copilot presentation builder -/

/-- The GitHub Copilot quota cache (fields read by the builder). -/
structure GitHubCopilotQuota where
  hourly_reset_time : Option ℚ := none
  weekly_reset_time : Option ℚ := none
  deriving DecidableEq, Repr

/-- A GitHub Copilot account record (fields read by the builder). -/
structure GitHubCopilotAccount where
  id : String
  email : Option String := none
  github_email : Option String := none
  github_login : String
  plan_type : Option String := none
  copilot_plan : Option String := none
  quota : Option GitHubCopilotQuota := none
  deriving DecidableEq, Repr

/-- The usage summary returned by the external `getGitHubCopilotUsage`. -/
structure GitHubCopilotUsage where
  inlineSuggestionsUsedPercent : Option JSNum := none
  chatMessagesUsedPercent : Option JSNum := none
  premiumRequestsUsedPercent : Option JSNum := none
  inlineIncluded : Option Bool := none
  chatIncluded : Option Bool := none
  premiumIncluded : Option Bool := none
  allowanceResetAt : Option ℚ := none
  deriving DecidableEq, Repr

/-- Collaborators of `buildGitHubCopilotAccountPresentation`. -/
structure GitHubCopilotExternal where
  getGitHubCopilotUsage : GitHubCopilotAccount → GitHubCopilotUsage
  getGitHubCopilotPlanDisplayName : Option String → String
  getGitHubCopilotQuotaClass : ℚ → String
  formatGitHubCopilotResetTime : ℚ → Translate → String
  numToString : ℚ → String

/-- The `{valueText, percentage, quotaClass}` triple built by
`buildCopilotMetric`. -/
structure CopilotMetricParts where
  valueText : String
  percentage : ℚ
  quotaClass : String
  deriving DecidableEq, Repr

/-- `buildCopilotMetric` from `useCodexAccountStore.ts`: an "included"
(unlimited) metric shows the included token at 100%; a missing/non-finite
percentage shows `-` at 0%; otherwise round then clamp into `[0, 100]`. -/
def buildCopilotMetric (numToString : ℚ → String) (percentage : Option JSNum)
    (included : Option Bool) (quotaClassGetter : ℚ → String)
    (includedText : String) : CopilotMetricParts :=
  if included.getD false then
    { valueText := includedText
      percentage := 100
      quotaClass := quotaClassGetter 0 }
  else
    match percentage with
    | some (.fin p) =>
        let normalized : ℤ := max 0 (min 100 (jsRound p))
        { valueText := numToString (normalized : ℚ) ++ "%"
          percentage := (normalized : ℚ)
          quotaClass := quotaClassGetter (normalized : ℚ) }
    | _ =>
        { valueText := "-"
          percentage := 0
          quotaClass := quotaClassGetter 0 }

/-- `buildGitHubCopilotAccountPresentation` from `useCodexAccountStore.ts`. -/
def buildGitHubCopilotAccountPresentation (E : GitHubCopilotExternal)
    (account : GitHubCopilotAccount) (t : Translate) :
    UnifiedAccountPresentation :=
  let displayName :=
    (account.email <|> account.github_email).getD account.github_login
  let normalizedPlan := E.getGitHubCopilotPlanDisplayName
    (jsOrOpt account.plan_type account.copilot_plan)
  let rawPlan := jsOrOpt (account.plan_type.map jsTrim)
    (account.copilot_plan.map jsTrim)
  let usage := E.getGitHubCopilotUsage account
  let includedText := t "githubCopilot.usage.included" "Included"
  let inline := buildCopilotMetric E.numToString
    usage.inlineSuggestionsUsedPercent usage.inlineIncluded
    E.getGitHubCopilotQuotaClass includedText
  let chat := buildCopilotMetric E.numToString
    usage.chatMessagesUsedPercent usage.chatIncluded
    E.getGitHubCopilotQuotaClass includedText
  let premium := buildCopilotMetric E.numToString
    usage.premiumRequestsUsedPercent usage.premiumIncluded
    E.getGitHubCopilotQuotaClass includedText
  let inlineReset :=
    (account.quota.bind (·.hourly_reset_time)) <|> usage.allowanceResetAt
  let chatReset :=
    (account.quota.bind (·.weekly_reset_time)) <|> usage.allowanceResetAt
  { id := account.id
    displayName := displayName
    planLabel := jsOrStr rawPlan normalizedPlan
    planClass := jsToLower normalizedPlan
    quotaItems := [
      { key := "inline"
        label := t "common.shared.quota.hourly" "Inline Suggestions"
        percentage := inline.percentage
        quotaClass := inline.quotaClass
        valueText := inline.valueText
        resetText := some (match inlineReset with
          | some r =>
              if r = 0 then "" else E.formatGitHubCopilotResetTime r t
          | none => "")
        resetAt := inlineReset.map ResetAtValue.ofNum },
      { key := "chat"
        label := t "common.shared.quota.weekly" "Chat messages"
        percentage := chat.percentage
        quotaClass := chat.quotaClass
        valueText := chat.valueText
        resetText := some (match chatReset with
          | some r =>
              if r = 0 then "" else E.formatGitHubCopilotResetTime r t
          | none => "")
        resetAt := chatReset.map ResetAtValue.ofNum },
      { key := "premium"
        label := t "githubCopilot.columns.premium" "Premium requests"
        percentage := premium.percentage
        quotaClass := premium.quotaClass
        valueText := premium.valueText }] }

/-! ### Windsurf presentation builder -/

/-- A Windsurf account record (fields read by the embedded code; the raw
quota payload is consumed only through `getWindsurfCreditsSummary`). -/
structure WindsurfAccount where
  id : String
  email : Option String := none
  plan_type : Option String := none
  copilot_plan : Option String := none
  deriving DecidableEq, Repr

/-- The credits summary returned by the external
`getWindsurfCreditsSummary`. -/
structure WindsurfCreditsSummary where
  planName : Option String := none
  promptCreditsUsed : Option JSNum := none
  promptCreditsTotal : Option JSNum := none
  promptCreditsLeft : Option JSNum := none
  addOnCreditsUsed : Option JSNum := none
  addOnCreditsTotal : Option JSNum := none
  addOnCredits : Option JSNum := none
  planEndsAt : Option ℚ := none
  deriving DecidableEq, Repr

/-- Collaborators of `buildWindsurfAccountPresentation`. -/
structure WindsurfExternal where
  getWindsurfCreditsSummary : WindsurfAccount → WindsurfCreditsSummary
  getWindsurfPlanDisplayName : Option String → String
  getWindsurfQuotaClass : ℚ → String
  getWindsurfAccountDisplayEmail : WindsurfAccount → String
  formatWindsurfResetTime : ℚ → Translate → String
  numToString : ℚ → String

/-- `buildWindsurfAccountPresentation` from `useCodexAccountStore.ts`. -/
def buildWindsurfAccountPresentation (E : WindsurfExternal)
    (account : WindsurfAccount) (t : Translate) :
    UnifiedAccountPresentation :=
  let credits := E.getWindsurfCreditsSummary account
  let normalizedPlan := E.getWindsurfPlanDisplayName
    ((account.plan_type <|> account.copilot_plan) <|> credits.planName)
  let rawPlan := jsOrOpt (account.plan_type.map jsTrim)
    (jsOrOpt (account.copilot_plan.map jsTrim)
      (credits.planName.map jsTrim))
  let promptMetrics := buildCreditMetrics credits.promptCreditsUsed
    credits.promptCreditsTotal credits.promptCreditsLeft
  let addOnMetrics := buildCreditMetrics credits.addOnCreditsUsed
    credits.addOnCreditsTotal credits.addOnCredits
  { id := account.id
    displayName := jsOrStr (account.email.map jsTrim)
      (E.getWindsurfAccountDisplayEmail account)
    planLabel := jsOrStr rawPlan normalizedPlan
    planClass := jsToLower normalizedPlan
    cycleText := some (match credits.planEndsAt with
      | some q =>
          if q = 0 then t "common.shared.credits.planEndsUnknown" "配额周期时间未知"
          else E.formatWindsurfResetTime q t
      | none => t "common.shared.credits.planEndsUnknown" "配额周期时间未知")
    quotaItems := [
      { key := "prompt"
        label := t "common.shared.columns.promptCredits" "User Prompt credits"
        percentage := promptMetrics.usedPercent
        quotaClass := E.getWindsurfQuotaClass promptMetrics.usedPercent
        valueText := E.numToString promptMetrics.usedPercent ++ "%"
        used := some promptMetrics.used
        total := some promptMetrics.total
        left := some promptMetrics.left },
      { key := "addon"
        label := t "common.shared.columns.addOnPromptCredits"
          "Add-on prompt credits"
        percentage := addOnMetrics.usedPercent
        quotaClass := E.getWindsurfQuotaClass addOnMetrics.usedPercent
        valueText := E.numToString addOnMetrics.usedPercent ++ "%"
        used := some addOnMetrics.used
        total := some addOnMetrics.total
        left := some addOnMetrics.left }] }

/-! ### Kiro presentation builder -/

/-- A Kiro account record (fields read by the embedded code; the raw
credential/quota payloads are consumed only through the external helpers). -/
structure KiroAccount where
  id : String
  plan_type : Option String := none
  plan_name : Option String := none
  plan_tier : Option String := none
  deriving DecidableEq, Repr

/-- The credits summary returned by the external `getKiroCreditsSummary`. -/
structure KiroCreditsSummary where
  planName : Option String := none
  promptCreditsUsed : Option JSNum := none
  promptCreditsTotal : Option JSNum := none
  promptCreditsLeft : Option JSNum := none
  addOnCreditsUsed : Option JSNum := none
  addOnCreditsTotal : Option JSNum := none
  addOnCredits : Option JSNum := none
  bonusExpireDays : Option JSNum := none
  planEndsAt : Option ℚ := none
  deriving DecidableEq, Repr

/-- Collaborators of `buildKiroAccountPresentation` (from `types/kiro`). -/
structure KiroExternal where
  getKiroCreditsSummary : KiroAccount → KiroCreditsSummary
  getKiroPlanDisplayName : Option String → String
  getKiroQuotaClass : ℚ → String
  getKiroPlanBadgeClass : String → String
  getKiroAccountDisplayEmail : KiroAccount → String
  getKiroAccountDisplayUserId : KiroAccount → String
  getKiroAccountLoginProvider : KiroAccount → Option String
  getKiroAccountStatus : KiroAccount → KiroAccountStatus
  getKiroAccountStatusReason : KiroAccount → Option String
  formatKiroResetTime : ℚ → Translate → String
  numToString : ℚ → String

/-- `shouldShowKiroAddOn` from `useCodexAccountStore.ts`: show the add-on
metric iff there is any add-on activity or a positive finite
bonus-expiry-days value. -/
def shouldShowKiroAddOn (addOnMetrics : CreditMetrics)
    (bonusExpireDays : Option JSNum) : Bool :=
  decide (0 < addOnMetrics.left) ||
  decide (0 < addOnMetrics.used) ||
  decide (0 < addOnMetrics.total) ||
  (match bonusExpireDays with
    | some (.fin q) => decide (0 < q)
    | _ => false)

/-- `buildKiroAccountPresentation` from `useCodexAccountStore.ts`. -/
def buildKiroAccountPresentation (E : KiroExternal) (account : KiroAccount)
    (t : Translate) : KiroAccountPresentation :=
  let credits := E.getKiroCreditsSummary account
  let normalizedPlan := E.getKiroPlanDisplayName
    (((account.plan_type <|> account.plan_name) <|> account.plan_tier)
      <|> credits.planName)
  let rawPlan := jsOrOpt (account.plan_type.map jsTrim)
    (jsOrOpt (account.plan_name.map jsTrim)
      (account.plan_tier.map jsTrim))
  let promptMetrics := buildCreditMetrics credits.promptCreditsUsed
    credits.promptCreditsTotal credits.promptCreditsLeft
  let addOnMetrics := buildCreditMetrics credits.addOnCreditsUsed
    credits.addOnCreditsTotal credits.addOnCredits
  let showAddOn := shouldShowKiroAddOn addOnMetrics credits.bonusExpireDays
  let accountStatus := E.getKiroAccountStatus account
  let provider := E.getKiroAccountLoginProvider account
  let signedInWithText := match provider with
    | some _ => t "kiro.account.signedInWithProvider"
        "Signed in with \x7b\x7bprovider\x7d\x7d"
    | none => t "kiro.account.signedInWithUnknown" "Signed in with unknown"
  let addOnExpiryText := match credits.bonusExpireDays with
    | some (.fin _) => t "kiro.credits.expiryDays" "\x7b\x7bdays\x7d\x7d days"
    | _ => t "kiro.credits.expiryUnknown" "—"
  let quotaItems : List UnifiedQuotaMetric :=
    [{ key := "prompt"
       label := t "common.shared.columns.promptCredits" "User Prompt credits"
       percentage := promptMetrics.usedPercent
       quotaClass := E.getKiroQuotaClass promptMetrics.usedPercent
       valueText := E.numToString promptMetrics.usedPercent ++ "%"
       used := some promptMetrics.used
       total := some promptMetrics.total
       left := some promptMetrics.left }] ++
    (if showAddOn then
      [{ key := "addon"
         label := t "common.shared.columns.addOnPromptCredits"
           "Add-on prompt credits"
         percentage := addOnMetrics.usedPercent
         quotaClass := E.getKiroQuotaClass addOnMetrics.usedPercent
         valueText := E.numToString addOnMetrics.usedPercent ++ "%"
         used := some addOnMetrics.used
         total := some addOnMetrics.total
         left := some addOnMetrics.left }]
    else [])
  { id := account.id
    displayName := E.getKiroAccountDisplayEmail account
    userIdText := E.getKiroAccountDisplayUserId account
    signedInWithText := signedInWithText
    addOnExpiryText := addOnExpiryText
    planLabel := jsOrStr rawPlan normalizedPlan
    planClass := E.getKiroPlanBadgeClass (jsOrStr rawPlan normalizedPlan)
    accountStatus := accountStatus
    accountStatusReason := E.getKiroAccountStatusReason account
    isBanned := accountStatus = .banned
    hasStatusError := accountStatus = .error
    cycleText := some (match credits.planEndsAt with
      | some q =>
          if q = 0 then t "common.shared.credits.planEndsUnknown" "配额周期时间未知"
          else E.formatKiroResetTime q t
      | none => t "common.shared.credits.planEndsUnknown" "配额周期时间未知")
    quotaItems := quotaItems }

/-! ### Antigravity presentation builder -/

/-- A per-model quota entry of the Antigravity quota cache. -/
structure AgModel where
  name : String
  percentage : ℚ
  reset_time : String
  deriving DecidableEq, Repr

/-- The Antigravity quota cache (fields read by the embedded code). -/
structure AgQuota where
  models : Option (List AgModel) := none
  deriving DecidableEq, Repr

/-- An Antigravity account record (fields read by the embedded code). -/
structure AgAccount where
  id : String
  email : String
  quota : Option AgQuota := none
  deriving DecidableEq, Repr

/-- `DisplayGroup` from `services/groupService`. -/
structure DisplayGroup where
  id : String
  name : String
  models : List String
  deriving DecidableEq, Repr

/-- `GroupSettings` from `services/groupService`.  The source's string-keyed
record maps are modelled as assignment lists in write order; they are consumed
only by the opaque `calculateGroupQuota`. -/
structure GroupSettings where
  groupMappings : List (String × String)
  groupNames : List (String × String)
  groupOrder : List String
  updatedAt : ℚ
  updatedBy : String
  deriving DecidableEq, Repr

/-- `AgQuotaDisplayItem` from `useCodexAccountStore.ts`. -/
structure AgQuotaDisplayItem where
  key : String
  label : String
  percentage : ℚ
  resetTime : String
  deriving DecidableEq, Repr

/-- Collaborators of the Antigravity builder (`utils/account`,
`services/groupService`, and the host date primitives). -/
structure AgExternal where
  getSubscriptionTier : Option AgQuota → String
  getDisplayModels : Option AgQuota → List AgModel
  getModelShortName : String → String
  getAntigravityQuotaClass : ℚ → String
  formatResetTimeDisplay : String → Translate → String
  matchModelName : String → String → Bool
  calculateGroupQuota : String → List (String × ℚ) → GroupSettings → Option ℚ
  dateParse : String → Option ℚ
  toISOString : ℚ → String
  numToString : ℚ → String

/-- `getAgAccountQuotas` from `useCodexAccountStore.ts`: the per-model
percentage record, in write order. -/
def getAgAccountQuotas (account : AgAccount) : List (String × ℚ) :=
  match account.quota.bind (·.models) with
  | none => []
  | some models => models.map fun m => (m.name, m.percentage)

/-- `buildAgDisplayGroupSettings` from `useCodexAccountStore.ts`. -/
def buildAgDisplayGroupSettings (groups : List DisplayGroup) : GroupSettings :=
  { groupMappings := groups.flatMap fun g => g.models.map fun m => (m, g.id)
    groupNames := groups.map fun g => (g.id, g.name)
    groupOrder := groups.map (·.id)
    updatedAt := 0
    updatedBy := "desktop" }

/-- `getAntigravityGroupResetTimestamp` from `useCodexAccountStore.ts`: the
earliest parseable reset time among the account's quota models belonging to
the group. -/
def getAntigravityGroupResetTimestamp (E : AgExternal) (account : AgAccount)
    (group : DisplayGroup) : Option ℚ :=
  match account.quota.bind (·.models) with
  | none => none
  | some [] => none
  | some models =>
      models.foldl (fun earliest m =>
        if group.models.any (fun gid => E.matchModelName m.name gid) then
          match E.dateParse m.reset_time with
          | none => earliest
          | some ts =>
              match earliest with
              | none => some ts
              | some e => if ts < e then some ts else some e
        else earliest) none

/-- `getAntigravityQuotaDisplayItems` from `useCodexAccountStore.ts`. -/
def getAntigravityQuotaDisplayItems (E : AgExternal) (account : AgAccount)
    (displayGroups : List DisplayGroup) : List AgQuotaDisplayItem :=
  let rawDisplayModels := E.getDisplayModels account.quota
  if rawDisplayModels.isEmpty then []
  else if displayGroups.isEmpty then
    rawDisplayModels.map fun m =>
      { key := m.name
        label := E.getModelShortName m.name
        percentage := m.percentage
        resetTime := m.reset_time }
  else
    let quotas := getAgAccountQuotas account
    let settings := buildAgDisplayGroupSettings displayGroups
    let groupedItems := displayGroups.filterMap fun g =>
      match E.calculateGroupQuota g.id quotas settings with
      | none => none
      | some percentage =>
          some { key := "group:" ++ g.id
                 label := g.name
                 percentage := percentage
                 resetTime :=
                   match getAntigravityGroupResetTimestamp E account g with
                   | some ts => if ts = 0 then "" else E.toISOString ts
                   | none => "" }
    if groupedItems.isEmpty then
      rawDisplayModels.map fun m =>
        { key := m.name
          label := E.getModelShortName m.name
          percentage := m.percentage
          resetTime := m.reset_time }
    else groupedItems

/-- `buildAntigravityAccountPresentation` from `useCodexAccountStore.ts`. -/
def buildAntigravityAccountPresentation (E : AgExternal) (account : AgAccount)
    (displayGroups : List DisplayGroup) (t : Translate) :
    UnifiedAccountPresentation :=
  let normalizedTier := E.getSubscriptionTier account.quota
  let quotaItems :=
    (getAntigravityQuotaDisplayItems E account displayGroups).map fun item =>
      { key := item.key
        label := item.label
        percentage := item.percentage
        quotaClass := E.getAntigravityQuotaClass item.percentage
        valueText := E.numToString item.percentage ++ "%"
        resetText := some (if item.resetTime = "" then ""
          else E.formatResetTimeDisplay item.resetTime t)
        resetAt := some (ResetAtValue.ofString item.resetTime) }
  { id := account.id
    displayName := account.email
    planLabel := normalizedTier
    planClass := jsToLower normalizedTier
    quotaItems := quotaItems }

/-! ### Quota preview lines -/

/-- `buildQuotaPreviewLines` from `useCodexAccountStore.ts`: take
`Math.max(0, limit)` items in builder order, format each as
`"{label} {valueText}"`. -/
def buildQuotaPreviewLines (quotaItems : List UnifiedQuotaMetric)
    (limit : ℤ := 3) : List QuotaPreviewLine :=
  (quotaItems.take (max 0 limit).toNat).map fun item =>
    { key := item.key
      label := item.label
      percentage := item.percentage
      quotaClass := item.quotaClass
      text := item.label ++ " " ++ item.valueText }

/-! ### Account-list sort (`CodexAccountsPage`, `filteredAccounts`) -/

/-- The sort comparator of the Codex accounts page's `filteredAccounts`
memo: `created_at` compares creation timestamps; the reset keys compare the
quota reset times with `null` forced to the end regardless of direction; any
other key compares the weekly/hourly percentage with `null` coerced to `-1`.
The direction is the raw `sortDirection` string (`"desc"` reverses). -/
def codexSortCompare (sortBy sortDirection : String)
    (a b : CodexAccount) : ℚ :=
  if sortBy = "created_at" then
    let diff := b.created_at - a.created_at
    if sortDirection = "desc" then diff else -diff
  else if sortBy = "weekly_reset" ∨ sortBy = "hourly_reset" then
    let aR := if sortBy = "weekly_reset" then
        a.quota.bind (·.weekly_reset_time)
      else a.quota.bind (·.hourly_reset_time)
    let bR := if sortBy = "weekly_reset" then
        b.quota.bind (·.weekly_reset_time)
      else b.quota.bind (·.hourly_reset_time)
    match aR, bR with
    | none, none => 0
    | none, some _ => 1
    | some _, none => -1
    | some x, some y => if sortDirection = "desc" then y - x else x - y
  else
    let aV := (if sortBy = "weekly" then a.quota.bind (·.weekly_percentage)
      else a.quota.bind (·.hourly_percentage)).getD (-1)
    let bV := (if sortBy = "weekly" then b.quota.bind (·.weekly_percentage)
      else b.quota.bind (·.hourly_percentage)).getD (-1)
    if sortDirection = "desc" then bV - aV else aV - bV

/-- The comparison value the sort uses for an account under each sort key
(`none` models a `null`/missing value). -/
def codexSortValue (sortBy : String) (a : CodexAccount) : Option ℚ :=
  if sortBy = "created_at" then some a.created_at
  else if sortBy = "weekly_reset" then a.quota.bind (·.weekly_reset_time)
  else if sortBy = "hourly_reset" then a.quota.bind (·.hourly_reset_time)
  else if sortBy = "weekly" then a.quota.bind (·.weekly_percentage)
  else a.quota.bind (·.hourly_percentage)

/-! ### Tag grouping (`CodexAccountsPage`, `groupedAccounts`) -/

/-- `normalizeTag` from `useProviderAccountsPage`: trim then lower-case. -/
def normalizeTag (tag : String) : String := jsToLower (jsTrim tag)

/-- The page-local `untaggedKey` constant. -/
def untaggedKey : String := "__untagged__"

/-- `groups.get(tag)?.push(account)` (creating the bucket on first use) on a
JavaScript `Map` modelled as an association list in insertion order. -/
def pushToGroup (groups : List (String × List CodexAccount)) (key : String)
    (a : CodexAccount) : List (String × List CodexAccount) :=
  match groups with
  | [] => [(key, [a])]
  | (k, l) :: rest =>
      if k = key then (k, l ++ [a]) :: rest
      else (k, l) :: pushToGroup rest key a

/-- The tags of an account that match the active tag filter: normalized,
empty strings dropped, and — when the filter is non-empty — intersected with
the normalized filter. -/
def matchedTagsOf (tagFilter : List String) (a : CodexAccount) :
    List String :=
  let tags := ((a.tags.getD []).map normalizeTag).filter (fun t => t ≠ "")
  let selectedTags := tagFilter.map normalizeTag
  if selectedTags.isEmpty then tags
  else tags.filter (fun t => selectedTags.contains t)

/-- The bucket-entry order used by the `groupedAccounts` sort comparator:
the untagged bucket is last, other buckets are ordered by key
(`localeCompare` modelled as the string order). -/
def groupEntryLE (x y : String × List CodexAccount) : Prop :=
  if x.1 = untaggedKey then y.1 = untaggedKey
  else y.1 = untaggedKey ∨ x.1 ≤ y.1

instance : DecidableRel groupEntryLE := fun x y => by
  unfold groupEntryLE
  infer_instance

instance : IsTotal (String × List CodexAccount) groupEntryLE where
  total x y := by
    unfold groupEntryLE
    by_cases hx : x.1 = untaggedKey
    · by_cases hy : y.1 = untaggedKey
      · left
        rw [if_pos hx]
        exact hy
      · right
        rw [if_neg hy]
        left
        exact hx
    · by_cases hy : y.1 = untaggedKey
      · left
        rw [if_neg hx]
        left
        exact hy
      · rcases le_total x.1 y.1 with h | h
        · left
          rw [if_neg hx]
          right
          exact h
        · right
          rw [if_neg hy]
          right
          exact h

instance : IsTrans (String × List CodexAccount) groupEntryLE where
  trans x y z hxy hyz := by
    unfold groupEntryLE at hxy hyz ⊢
    by_cases hx : x.1 = untaggedKey
    · rw [if_pos hx] at hxy ⊢
      rw [if_pos hxy] at hyz
      exact hyz
    · rw [if_neg hx] at hxy ⊢
      by_cases hy : y.1 = untaggedKey
      · rw [if_pos hy] at hyz
        exact Or.inl hyz
      · rw [if_neg hy] at hyz
        rcases hxy with h | h
        · exact absurd h hy
        · rcases hyz with h' | h'
          · exact Or.inl h'
          · exact Or.inr (le_trans h h')

/-- The body of the `groupedAccounts` fold: push the account into the bucket
of each matched tag, or into the untagged bucket when no tag matches. -/
def groupStep (tagFilter : List String)
    (groups : List (String × List CodexAccount)) (a : CodexAccount) :
    List (String × List CodexAccount) :=
  let matchedTags := matchedTagsOf tagFilter a
  if matchedTags.isEmpty then pushToGroup groups untaggedKey a
  else matchedTags.foldl (fun g tag => pushToGroup g tag a) groups

/-- `groupedAccounts` from the Codex accounts page: when grouping is off, the
empty list; otherwise every filtered account is pushed into the bucket of
each matching tag (or the untagged bucket when none match), and the buckets
are sorted (modelling the JavaScript comparator sort) with the untagged
bucket last and the rest by key. -/
def groupedAccounts (groupByTag : Bool) (tagFilter : List String)
    (filteredAccounts : List CodexAccount) :
    List (String × List CodexAccount) :=
  if !groupByTag then []
  else
    let groups := filteredAccounts.foldl (groupStep tagFilter) []
    groups.insertionSort groupEntryLE

/-- One account's contribution to bucket `t`: one copy per occurrence of `t`
among its matched tags, or a single copy to the untagged bucket when no tag
matches. -/
def bucketContrib (tagFilter : List String) (a : CodexAccount)
    (t : String) : List CodexAccount :=
  let matched := matchedTagsOf tagFilter a
  if matched.isEmpty then (if t = untaggedKey then [a] else [])
  else List.replicate (matched.count t) a

/-- The specification of a bucket's contents: the concatenation of every
account's contribution, in account order. -/
def bucketContents (tagFilter : List String) (accs : List CodexAccount)
    (t : String) : List CodexAccount :=
  accs.flatMap fun a => bucketContrib tagFilter a t

/-! ### OAuth device-flow orchestration (`useProviderAccountsPage`)

The hook's OAuth-relevant state is the tuple of React state cells and
mutable refs; backend promises are modelled by pending-call counters.  An
event-step function captures each synchronous handler of the source:
the auto-prepare effect, the `startLogin` promise settling (its `.then`
chain immediately invokes `completeLogin`, counted by `pendingComplete`),
the `completeLogin` promise settling, the retry button (rendered by the
pages only when a prepare error, or a completion error flagged as timed
out, is shown), opening/closing the add-modal and switching its tab.
Cancellation (`cancelLogin`, fired by the close/tab-change effect when a
login id is held) aborts the in-flight completion, so a cancelled
completion is no longer counted as in flight. -/

/-- The OAuth-relevant state of one `useProviderAccountsPage` instance. -/
structure OauthState where
  modalOpen : Bool := false
  tabOauth : Bool := false
  url : Option String := none
  active : Bool := false
  completing : Bool := false
  loginId : Option String := none
  polling : Bool := false
  prepareError : Bool := false
  completeError : Bool := false
  timedOut : Bool := false
  pendingStart : ℕ := 0
  pendingComplete : ℕ := 0
  startCount : ℕ := 0
  completeCount : ℕ := 0
  deriving DecidableEq, Repr

/-- The events that drive the hook's OAuth state. -/
inductive OauthEvent where
  | effectFire
  | startResolve (loginId url : String)
  | startReject
  | completeResolve
  | completeReject (timedOut : Bool)
  | retryClick
  | openModal
  | closeModal
  | tabAway
  | tabBack
  deriving DecidableEq, Repr

/-- `prepareOauthUrl` from `useProviderAccountsPage`: guarded by the
modal/tab refs, `oauthActiveRef` and `oauthCompletingRef`; on entry it
clears the error/polling state and issues a `startLogin` call.  It does not
touch `oauthUrl` or the held login id. -/
def prepareOauthUrl (s : OauthState) : OauthState :=
  if ¬ (s.modalOpen ∧ s.tabOauth) then s
  else if s.active then s
  else if s.completing then s
  else
    { s with active := true, prepareError := false, completeError := false,
             timedOut := false, polling := false,
             pendingStart := s.pendingStart + 1,
             startCount := s.startCount + 1 }

/-- The body of the cancel-on-close/tab-change effect once a login id is
held: fire-and-forget `cancelLogin` (aborting the in-flight completion) and
reset all OAuth-local state. -/
def cancelOauth (s : OauthState) : OauthState :=
  { s with active := false, loginId := none, completing := false,
           url := none, polling := false, prepareError := false,
           completeError := false, timedOut := false,
           pendingComplete := 0 }

/-- `resetAddModalState` restricted to the modelled fields: it clears the
OAuth url, errors and polling and resets `oauthActiveRef` — but neither
`oauthCompletingRef` nor the held login id. -/
def resetAddModalState (s : OauthState) : OauthState :=
  { s with url := none, active := false, polling := false,
           prepareError := false, completeError := false, timedOut := false }

/-- One synchronous reaction of the hook to an event.  Promise-settling
events with no pending call, and guarded events whose guard fails, leave the
state unchanged. -/
def oauthStep (s : OauthState) (e : OauthEvent) : OauthState :=
  match e with
  | .effectFire =>
      if s.modalOpen ∧ s.tabOauth ∧ (s.url = none ∨ s.url = some "") then
        prepareOauthUrl s
      else s
  | .startResolve loginId url =>
      if s.pendingStart = 0 then s
      else
        { s with pendingStart := s.pendingStart - 1,
                 loginId := some loginId, url := some url,
                 polling := true, completing := true, active := false,
                 pendingComplete := s.pendingComplete + 1,
                 completeCount := s.completeCount + 1 }
  | .startReject =>
      if s.pendingStart = 0 then s
      else
        { s with pendingStart := s.pendingStart - 1,
                 active := false, completing := false, polling := false,
                 prepareError := true }
  | .completeResolve =>
      if s.pendingComplete = 0 then s
      else
        { s with pendingComplete := s.pendingComplete - 1,
                 polling := false, completing := false }
  | .completeReject timedOut =>
      if s.pendingComplete = 0 then s
      else
        { s with pendingComplete := s.pendingComplete - 1,
                 completeError := true, timedOut := timedOut,
                 polling := false, completing := false, active := false }
  | .retryClick =>
      if s.modalOpen ∧ s.tabOauth ∧
          (s.prepareError ∨ (s.completeError ∧ s.timedOut)) then
        prepareOauthUrl
          { s with active := false, loginId := none, completing := false,
                   prepareError := false, completeError := false,
                   timedOut := false, polling := false, url := none }
      else s
  | .openModal =>
      if s.modalOpen then s
      else resetAddModalState { s with modalOpen := true, tabOauth := true }
  | .closeModal =>
      if s.modalOpen then
        let s1 := resetAddModalState { s with modalOpen := false }
        match s1.loginId with
        | some _ => cancelOauth s1
        | none => s1
      else s
  | .tabAway =>
      if s.modalOpen ∧ s.tabOauth then
        let s1 := { s with tabOauth := false }
        match s1.loginId with
        | some _ => cancelOauth s1
        | none => s1
      else s
  | .tabBack =>
      if s.modalOpen ∧ ¬ s.tabOauth then { s with tabOauth := true } else s

/-- Run the hook from a fresh instance through a list of events. -/
def runOauth (events : List OauthEvent) : OauthState :=
  events.foldl oauthStep {}

/-- States reachable within a single opening of the add-modal on the oauth
tab: the modal is opened once and then only re-renders, promise settlements
and (error-state) retries occur. -/
inductive OauthSessionReachable : OauthState → Prop where
  | opened : OauthSessionReachable (oauthStep {} .openModal)
  | step {s : OauthState} (e : OauthEvent)
      (hs : OauthSessionReachable s)
      (he : e ≠ .openModal ∧ e ≠ .closeModal ∧ e ≠ .tabAway ∧ e ≠ .tabBack) :
      OauthSessionReachable (oauthStep s e)

/-! ### Concrete collaborator instances used by witnesses -/

/-- A default translation function: return the fallback text. -/
def tDefault : Translate := fun _ d => d

/-- A concrete `KiroExternal` whose credits summary reports no add-on
activity and the given bonus-expiry-days value. -/
def kiroTestExternal (bonus : Option JSNum) : KiroExternal :=
  { getKiroCreditsSummary := fun _ => { bonusExpireDays := bonus }
    getKiroPlanDisplayName := fun _ => "Free"
    getKiroQuotaClass := fun _ => "low"
    getKiroPlanBadgeClass := fun s => jsToLower s
    getKiroAccountDisplayEmail := fun _ => "user@example.com"
    getKiroAccountDisplayUserId := fun _ => "uid"
    getKiroAccountLoginProvider := fun _ => none
    getKiroAccountStatus := fun _ => .ok
    getKiroAccountStatusReason := fun _ => none
    formatKiroResetTime := fun _ _ => ""
    numToString := fun _ => "0" }

/-- A concrete `KiroExternal` whose plan-name normalizer collapses every
vendor string to `"Pro"` while the badge-class helper passes its argument
through unchanged. -/
def kiroBadgeExternal : KiroExternal :=
  { getKiroCreditsSummary := fun _ => {}
    getKiroPlanDisplayName := fun _ => "Pro"
    getKiroQuotaClass := fun _ => "low"
    getKiroPlanBadgeClass := fun s => s
    getKiroAccountDisplayEmail := fun _ => "user@example.com"
    getKiroAccountDisplayUserId := fun _ => "uid"
    getKiroAccountLoginProvider := fun _ => none
    getKiroAccountStatus := fun _ => .ok
    getKiroAccountStatusReason := fun _ => none
    formatKiroResetTime := fun _ _ => ""
    numToString := fun _ => "0" }

/-- A Kiro account with no raw plan fields. -/
def kiroTestAccount : KiroAccount := { id := "k1" }

/-- An account carrying the two tags `"x"` and `"y"`. -/
def tagsXY : CodexAccount := { id := "g", email := "g@x", tags := some ["x", "y"] }

/-- An account whose two tags both normalize to `"x"`. -/
def tagsDup : CodexAccount := { id := "d", email := "d@x", tags := some ["x", "X"] }

/-! ## Theorems -/

/-- The store-local `clampPercent` always returns an integer in `[0, 100]`. -/
theorem clampPercentStore_range (v : JSNum) :
    ∃ n : ℤ, clampPercentStore v = (n : ℚ) ∧ 0 ≤ n ∧ n ≤ 100 := by
  cases v with
  | nonfinite => exact ⟨0, rfl, by norm_num, by norm_num⟩
  | fin q =>
      simp only [clampPercentStore]
      split_ifs with h1 h2
      · exact ⟨0, by norm_num, by norm_num, by norm_num⟩
      · exact ⟨100, by norm_num, by norm_num, by norm_num⟩
      · refine ⟨jsRound q, rfl, ?_, ?_⟩
        · exact Int.floor_nonneg.mpr (by push_cast; linarith)
        · have : jsRound q < 101 := Int.floor_lt.mpr (by push_cast; linarith)
          omega

/-- Unfolding lemma: `normalizeTimestamp` on a finite number is the shared
seconds/milliseconds disambiguation. -/
theorem normalizeTimestamp_num_fin
    (jsParseNumber jsDateParse : String → Option ℚ) (q : ℚ) :
    normalizeTimestamp jsParseNumber jsDateParse (.num (.fin q))
      = timestampFromNumber q := by
  simp [normalizeTimestamp, toNumber]

/-- C3: `normalizeTimestamp` on a finite numeric input `n` returns
`floor n` when `0 < n ≤ 1e12`, `floor (n / 1000)` when `n > 1e12`, and `null`
when `n ≤ 0`; a non-finite numeric input returns `null`.  Holds for every
implementation of the host `Number`/`Date.parse` coercions. -/
theorem normalizeTimestamp_numeric_spec
    (jsParseNumber jsDateParse : String → Option ℚ) (q : ℚ) :
    (0 < q → q ≤ 10 ^ 12 →
      normalizeTimestamp jsParseNumber jsDateParse (.num (.fin q)) = some ⌊q⌋) ∧
    (10 ^ 12 < q →
      normalizeTimestamp jsParseNumber jsDateParse (.num (.fin q))
        = some ⌊q / 1000⌋) ∧
    (q ≤ 0 →
      normalizeTimestamp jsParseNumber jsDateParse (.num (.fin q)) = none) ∧
    normalizeTimestamp jsParseNumber jsDateParse (.num .nonfinite) = none := by
  refine ⟨?_, ?_, ?_, ?_⟩
  · intro h1 h2
    rw [normalizeTimestamp_num_fin]
    unfold timestampFromNumber
    rw [if_neg (by linarith), if_neg (by linarith)]
  · intro h
    rw [normalizeTimestamp_num_fin]
    unfold timestampFromNumber
    rw [if_neg (by linarith), if_pos h]
  · intro h
    rw [normalizeTimestamp_num_fin]
    unfold timestampFromNumber
    rw [if_pos h]
  · simp [normalizeTimestamp, toNumber]

/-- Witness for `normalizeTimestamp_numeric_spec` at the documented examples:
`1700000000` (seconds) maps to itself, `1700000000000` (milliseconds) maps to
`1700000000`, and `-5` maps to `null`. -/
theorem normalizeTimestamp_numeric_witness :
    normalizeTimestamp (fun _ => none) (fun _ => none)
        (.num (.fin 1700000000)) = some 1700000000 ∧
    normalizeTimestamp (fun _ => none) (fun _ => none)
        (.num (.fin 1700000000000)) = some 1700000000 ∧
    normalizeTimestamp (fun _ => none) (fun _ => none)
        (.num (.fin (-5))) = none := by
  refine ⟨?_, ?_, ?_⟩
  · have h := (normalizeTimestamp_numeric_spec (fun _ => none) (fun _ => none)
      1700000000).1 (by norm_num) (by norm_num)
    rw [h]
    norm_num
  · have h := (normalizeTimestamp_numeric_spec (fun _ => none) (fun _ => none)
      1700000000000).2.1 (by norm_num)
    rw [h]
    norm_num
  · exact (normalizeTimestamp_numeric_spec (fun _ => none) (fun _ => none)
      (-5)).2.2.1 (by norm_num)

/-- C8: `clampPercent` always returns `null` or an integer in `[0, 100]`:
`null`/non-finite inputs give `null`, negative inputs give 0, inputs above 100
give 100, in-range inputs are rounded; with the documented concrete
examples. -/
theorem clampPercent_spec :
    (∀ x, clampPercent x = none ∨
      ∃ n : ℤ, clampPercent x = some (n : ℚ) ∧ 0 ≤ n ∧ n ≤ 100) ∧
    clampPercent none = none ∧
    clampPercent (some .nonfinite) = none ∧
    (∀ q : ℚ, q < 0 → clampPercent (some (.fin q)) = some 0) ∧
    (∀ q : ℚ, 100 < q → clampPercent (some (.fin q)) = some 100) ∧
    (∀ q : ℚ, 0 ≤ q → q ≤ 100 →
      clampPercent (some (.fin q)) = some ((jsRound q : ℤ) : ℚ)) ∧
    clampPercent (some (.fin 150)) = some 100 ∧
    clampPercent (some (.fin (-3))) = some 0 ∧
    clampPercent (some (.fin (426 / 10))) = some 43 := by
  refine ⟨?_, rfl, rfl, ?_, ?_, ?_, ?_, ?_, ?_⟩
  · intro x
    match x with
    | none => exact Or.inl rfl
    | some .nonfinite => exact Or.inl rfl
    | some (.fin q) =>
        refine Or.inr ?_
        simp only [clampPercent]
        split_ifs with h1 h2
        · exact ⟨0, by norm_num, by norm_num, by norm_num⟩
        · exact ⟨100, by norm_num, by norm_num, by norm_num⟩
        · refine ⟨jsRound q, rfl, ?_, ?_⟩
          · exact Int.floor_nonneg.mpr (by push_cast; linarith)
          · have : jsRound q < 101 := Int.floor_lt.mpr (by push_cast; linarith)
            omega
  · intro q h
    simp only [clampPercent]
    rw [if_pos h]
  · intro q h
    simp only [clampPercent]
    rw [if_neg (by linarith), if_pos h]
  · intro q h1 h2
    simp only [clampPercent]
    split_ifs with ha hb
    · linarith
    · linarith
    · rfl
  · simp only [clampPercent]
    norm_num
  · simp only [clampPercent]
    norm_num
  · simp only [clampPercent]
    norm_num [jsRound]

/-- Witness for `clampPercent_spec`: discharging the conditional clauses at
concrete inputs. -/
theorem clampPercent_spec_witness :
    clampPercent (some (.fin (-7))) = some 0 ∧
    clampPercent (some (.fin 250)) = some 100 ∧
    clampPercent (some (.fin 55)) = some ((jsRound 55 : ℤ) : ℚ) := by
  refine ⟨?_, ?_, ?_⟩
  · exact clampPercent_spec.2.2.2.1 (-7) (by norm_num)
  · exact clampPercent_spec.2.2.2.2.1 250 (by norm_num)
  · exact clampPercent_spec.2.2.2.2.2.1 55 (by norm_num) (by norm_num)

/-- C1 counterexample: the claim says `usedPercent = round(used/total*100)`
whenever `total > 0` and `used` is known, but at `used = 150, total = 100` the
code clamps the percentage to 100 while the claimed formula gives 150. -/
theorem buildCreditMetrics_round_counterexample :
    (buildCreditMetrics (some (.fin 150)) (some (.fin 100)) none).usedPercent
      = 100 ∧
    ((jsRound ((150 : ℚ) / 100 * 100) : ℤ) : ℚ) = 150 ∧
    (100 : ℚ) ≠ 150 := by
  refine ⟨?_, ?_, by norm_num⟩
  · norm_num [buildCreditMetrics, toFiniteNumber, clampPercentStore]
  · norm_num [jsRound]

/-- C1 (amended): `usedPercent` is the round-and-clamp (`clampPercentStore`,
the store-local clamp into `[0, 100]`) of `used/total*100` when `total > 0`
and `used` is a known finite number; else of `(total-left)/total*100` when
`total > 0` and `left` is known; and `0` in every other case (in particular
when `total = 0` or `total` is unknown — no division by zero). -/
theorem buildCreditMetrics_usedPercent_spec (used total left : Option JSNum) :
    (∀ t u : ℚ, toFiniteNumber total = some t → 0 < t →
      toFiniteNumber used = some u →
      (buildCreditMetrics used total left).usedPercent
        = clampPercentStore (.fin (u / t * 100))) ∧
    (∀ t l : ℚ, toFiniteNumber total = some t → 0 < t →
      toFiniteNumber used = none → toFiniteNumber left = some l →
      (buildCreditMetrics used total left).usedPercent
        = clampPercentStore (.fin ((t - l) / t * 100))) ∧
    (∀ t : ℚ, toFiniteNumber total = some t → 0 < t →
      toFiniteNumber used = none → toFiniteNumber left = none →
      (buildCreditMetrics used total left).usedPercent = 0) ∧
    (∀ t : ℚ, toFiniteNumber total = some t → t ≤ 0 →
      (buildCreditMetrics used total left).usedPercent = 0) ∧
    (toFiniteNumber total = none →
      (buildCreditMetrics used total left).usedPercent = 0) := by
  refine ⟨?_, ?_, ?_, ?_, ?_⟩
  · intro t u ht htpos hu
    simp [buildCreditMetrics, ht, hu, htpos]
  · intro t l ht htpos hu hl
    simp [buildCreditMetrics, ht, hu, hl, htpos]
  · intro t ht htpos hu hl
    simp [buildCreditMetrics, ht, hu, hl, htpos]
  · intro t ht htle
    have : ¬ (0 < t) := not_lt.mpr htle
    simp [buildCreditMetrics, ht, this]
  · intro ht
    simp [buildCreditMetrics, ht]

/-- Witness for `buildCreditMetrics_usedPercent_spec` at the documented
examples: `used=30, total=100` gives 30; `used` unknown, `total=100, left=70`
gives 30; `total=0` gives 0. -/
theorem buildCreditMetrics_usedPercent_witness :
    (buildCreditMetrics (some (.fin 30)) (some (.fin 100)) none).usedPercent
      = 30 ∧
    (buildCreditMetrics none (some (.fin 100)) (some (.fin 70))).usedPercent
      = 30 ∧
    (buildCreditMetrics (some (.fin 30)) (some (.fin 0)) none).usedPercent
      = 0 := by
  refine ⟨?_, ?_, ?_⟩
  · have h := (buildCreditMetrics_usedPercent_spec (some (.fin 30))
      (some (.fin 100)) none).1 100 30 rfl (by norm_num) rfl
    rw [h]
    norm_num [clampPercentStore, jsRound]
  · have h := (buildCreditMetrics_usedPercent_spec none
      (some (.fin 100)) (some (.fin 70))).2.1 100 70 rfl (by norm_num) rfl rfl
    rw [h]
    norm_num [clampPercentStore, jsRound]
  · exact (buildCreditMetrics_usedPercent_spec (some (.fin 30))
      (some (.fin 0)) none).2.2.2.1 0 rfl (by norm_num)

/-- C10: for every input triple, `buildCreditMetrics` returns a `usedPercent`
that is an integer clamped into `[0, 100]`, and echoes `used`/`total`/`left`
when the input is a finite number and `0` otherwise — never `null`, `NaN` or
an out-of-range percentage. -/
theorem buildCreditMetrics_total_spec (used total left : Option JSNum) :
    (∃ n : ℤ, (buildCreditMetrics used total left).usedPercent = (n : ℚ) ∧
      0 ≤ n ∧ n ≤ 100) ∧
    (∀ q : ℚ, used = some (.fin q) →
      (buildCreditMetrics used total left).used = q) ∧
    ((∀ q : ℚ, used ≠ some (.fin q)) →
      (buildCreditMetrics used total left).used = 0) ∧
    (∀ q : ℚ, total = some (.fin q) →
      (buildCreditMetrics used total left).total = q) ∧
    ((∀ q : ℚ, total ≠ some (.fin q)) →
      (buildCreditMetrics used total left).total = 0) ∧
    (∀ q : ℚ, left = some (.fin q) →
      (buildCreditMetrics used total left).left = q) ∧
    ((∀ q : ℚ, left ≠ some (.fin q)) →
      (buildCreditMetrics used total left).left = 0) := by
  have echo : ∀ v : Option JSNum,
      (∀ q : ℚ, v = some (.fin q) → (toFiniteNumber v).getD 0 = q) ∧
      ((∀ q : ℚ, v ≠ some (.fin q)) → (toFiniteNumber v).getD 0 = 0) := by
    intro v
    constructor
    · intro q hq
      subst hq
      rfl
    · intro hq
      match v with
      | none => rfl
      | some .nonfinite => rfl
      | some (.fin q) => exact absurd rfl (hq q)
  refine ⟨?_, (echo used).1, (echo used).2, (echo total).1, (echo total).2,
    (echo left).1, (echo left).2⟩
  unfold buildCreditMetrics
  cases htot : toFiniteNumber total with
  | none => exact ⟨0, by simp, by norm_num, by norm_num⟩
  | some t =>
      by_cases htpos : 0 < t
      · cases hu : toFiniteNumber used with
        | some u =>
            obtain ⟨n, hn, h0, h100⟩ :=
              clampPercentStore_range (.fin (u / t * 100))
            exact ⟨n, by simp [htpos, hn], h0, h100⟩
        | none =>
            cases hl : toFiniteNumber left with
            | some l =>
                obtain ⟨n, hn, h0, h100⟩ :=
                  clampPercentStore_range (.fin ((t - l) / t * 100))
                exact ⟨n, by simp [htpos, hn], h0, h100⟩
            | none => exact ⟨0, by simp [htpos], by norm_num, by norm_num⟩
      · exact ⟨0, by simp [htpos], by norm_num, by norm_num⟩

/-- C9: `buildQuotaPreviewLines` returns exactly `min limit items.length`
lines, in input order (no sorting), each line's text being the metric's label
followed by a space and its `valueText`. -/
theorem buildQuotaPreviewLines_spec (items : List UnifiedQuotaMetric)
    (n : ℕ) :
    buildQuotaPreviewLines items (n : ℤ) = (items.take n).map (fun item =>
      { key := item.key
        label := item.label
        percentage := item.percentage
        quotaClass := item.quotaClass
        text := item.label ++ " " ++ item.valueText }) ∧
    (buildQuotaPreviewLines items (n : ℤ)).length = min n items.length := by
  have hmax : (max 0 (n : ℤ)).toNat = n := by omega
  constructor
  · simp [buildQuotaPreviewLines, hmax]
  · simp [buildQuotaPreviewLines, hmax]

/-- C2: `shouldShowKiroAddOn` is `false` exactly when the add-on metrics have
`left ≤ 0`, `used ≤ 0`, `total ≤ 0` and there is no positive finite
bonus-expiry-days value; and the Kiro builder's `quotaItems` length is 2 when
the add-on metric is shown and 1 when it is suppressed. -/
theorem kiroAddOn_visibility_spec :
    (∀ (m : CreditMetrics) (d : Option JSNum),
      shouldShowKiroAddOn m d = false ↔
        (m.left ≤ 0 ∧ m.used ≤ 0 ∧ m.total ≤ 0 ∧
          ∀ q : ℚ, d = some (.fin q) → q ≤ 0)) ∧
    (∀ (E : KiroExternal) (account : KiroAccount) (t : Translate),
      (buildKiroAccountPresentation E account t).quotaItems.length =
        if shouldShowKiroAddOn
            (buildCreditMetrics
              (E.getKiroCreditsSummary account).addOnCreditsUsed
              (E.getKiroCreditsSummary account).addOnCreditsTotal
              (E.getKiroCreditsSummary account).addOnCredits)
            (E.getKiroCreditsSummary account).bonusExpireDays
        then 2 else 1) := by
  constructor
  · intro m d
    unfold shouldShowKiroAddOn
    constructor
    · intro h
      simp only [Bool.or_eq_false_iff, decide_eq_false_iff_not, not_lt] at h
      obtain ⟨⟨⟨h1, h2⟩, h3⟩, h4⟩ := h
      refine ⟨h1, h2, h3, ?_⟩
      intro q hq
      subst hq
      simpa using h4
    · rintro ⟨h1, h2, h3, h4⟩
      simp only [Bool.or_eq_false_iff, decide_eq_false_iff_not, not_lt]
      refine ⟨⟨⟨h1, h2⟩, h3⟩, ?_⟩
      match d with
      | none => rfl
      | some .nonfinite => rfl
      | some (.fin q) => simpa using h4 q rfl
  · intro E account t
    unfold buildKiroAccountPresentation
    cases h : shouldShowKiroAddOn
        (buildCreditMetrics (E.getKiroCreditsSummary account).addOnCreditsUsed
          (E.getKiroCreditsSummary account).addOnCreditsTotal
          (E.getKiroCreditsSummary account).addOnCredits)
        (E.getKiroCreditsSummary account).bonusExpireDays <;> simp [h]

/-- Witness for `kiroAddOn_visibility_spec`: with no add-on activity and no
bonus-expiry-days the Kiro builder emits one metric (prompt only); with
`bonusExpireDays = 5` it emits two. -/
theorem kiroAddOn_visibility_witness :
    shouldShowKiroAddOn (buildCreditMetrics none none none) none = false ∧
    (buildKiroAccountPresentation (kiroTestExternal none) kiroTestAccount
      tDefault).quotaItems.length = 1 ∧
    (buildKiroAccountPresentation (kiroTestExternal (some (.fin 5)))
      kiroTestAccount tDefault).quotaItems.length = 2 := by
  refine ⟨?_, ?_, ?_⟩
  · exact (kiroAddOn_visibility_spec.1 (buildCreditMetrics none none none)
      none).mpr ⟨by decide, by decide, by decide, fun q h => by simp at h⟩
  · have h := kiroAddOn_visibility_spec.2 (kiroTestExternal none)
      kiroTestAccount tDefault
    rw [h]
    decide
  · have h := kiroAddOn_visibility_spec.2 (kiroTestExternal (some (.fin 5)))
      kiroTestAccount tDefault
    rw [h]
    decide

/-- C4 counterexample: for Kiro the CSS-class bucket is computed from the raw
vendor plan string when one is present, not from the normalized plan name.
With a normalizer that collapses every vendor string to the same normalized
plan `"Pro"`, the accounts with raw plans `"PRO+"` and `"Basic"` share the
normalized plan name, are displayed under their raw labels, and yet receive
different `planClass` values — so `planClass` is not derived from the
normalized plan name. -/
theorem kiroPlanClass_raw_counterexample :
    kiroBadgeExternal.getKiroPlanDisplayName (some "PRO+")
      = kiroBadgeExternal.getKiroPlanDisplayName (some "Basic") ∧
    (buildKiroAccountPresentation kiroBadgeExternal
      { id := "a", plan_type := some "PRO+" } tDefault).planLabel = "PRO+" ∧
    (buildKiroAccountPresentation kiroBadgeExternal
      { id := "b", plan_type := some "Basic" } tDefault).planLabel
      = "Basic" ∧
    (buildKiroAccountPresentation kiroBadgeExternal
      { id := "a", plan_type := some "PRO+" } tDefault).planClass = "PRO+" ∧
    (buildKiroAccountPresentation kiroBadgeExternal
      { id := "b", plan_type := some "Basic" } tDefault).planClass
      = "Basic" ∧
    ("PRO+" : String) ≠ "Basic" := by
  refine ⟨rfl, ?_, ?_, ?_, ?_, by decide⟩
  · decide
  · decide
  · decide
  · decide

/-- C4 (amended): for Antigravity, Codex, GitHub Copilot and Windsurf the
`planClass` is the lower-cased *normalized* plan name, independent of the raw
vendor plan string; for Kiro the `planClass` is `getKiroPlanBadgeClass`
applied to the raw vendor plan string when a non-empty one is present,
falling back to the normalized plan name. -/
theorem planClass_derivation_spec :
    (∀ (E : AgExternal) (account : AgAccount)
        (groups : List DisplayGroup) (t : Translate),
      (buildAntigravityAccountPresentation E account groups t).planClass
        = jsToLower (E.getSubscriptionTier account.quota)) ∧
    (∀ (E : CodexExternal) (account : CodexAccount) (t : Translate),
      (buildCodexAccountPresentation E account t).planClass
        = jsToLower (E.getCodexPlanDisplayName account.plan_type)) ∧
    (∀ (E : GitHubCopilotExternal) (account : GitHubCopilotAccount)
        (t : Translate),
      (buildGitHubCopilotAccountPresentation E account t).planClass
        = jsToLower (E.getGitHubCopilotPlanDisplayName
            (jsOrOpt account.plan_type account.copilot_plan))) ∧
    (∀ (E : WindsurfExternal) (account : WindsurfAccount) (t : Translate),
      (buildWindsurfAccountPresentation E account t).planClass
        = jsToLower (E.getWindsurfPlanDisplayName
            ((account.plan_type <|> account.copilot_plan)
              <|> (E.getWindsurfCreditsSummary account).planName))) ∧
    (∀ (E : KiroExternal) (account : KiroAccount) (t : Translate),
      (buildKiroAccountPresentation E account t).planClass
        = E.getKiroPlanBadgeClass (jsOrStr
            (jsOrOpt (account.plan_type.map jsTrim)
              (jsOrOpt (account.plan_name.map jsTrim)
                (account.plan_tier.map jsTrim)))
            (E.getKiroPlanDisplayName
              (((account.plan_type <|> account.plan_name)
                  <|> account.plan_tier)
                <|> (E.getKiroCreditsSummary account).planName)))) := by
  exact ⟨fun _ _ _ _ => rfl, fun _ _ _ => rfl, fun _ _ _ => rfl,
    fun _ _ _ => rfl, fun _ _ _ => rfl⟩

/-- C5 counterexample: under the quota-magnitude sort key in ascending
direction, an account with a missing comparison value sorts *before* an
account with percentage 50 (its value is coerced to `-1`), contradicting the
claim that null values sort last regardless of direction. -/
theorem codexSort_nullsLast_counterexample :
    codexSortValue "weekly" { id := "a", email := "a@x" } = none ∧
    codexSortValue "weekly"
      { id := "b", email := "b@x",
        quota := some { weekly_percentage := some 50 } } = some 50 ∧
    codexSortCompare "weekly" "asc"
      { id := "a", email := "a@x" }
      { id := "b", email := "b@x",
        quota := some { weekly_percentage := some 50 } } = -51 ∧
    ¬ (0 : ℚ) < -51 := by
  refine ⟨by decide, by decide, ?_, by norm_num⟩
  simp [codexSortCompare]
  norm_num

/-- C5 (amended): in the Codex account-list sort, a `null`/missing comparison
value sorts after every non-null value regardless of direction for the
reset-time keys; for the quota-magnitude keys a missing value is coerced to
`-1`, so it sorts after non-null percentages (above `-1`) only in descending
direction and before them in ascending direction; the creation-time key never
has a missing value. -/
theorem codexSort_nulls_spec :
    (∀ sortBy : String, sortBy = "weekly_reset" ∨ sortBy = "hourly_reset" →
      ∀ (dir : String) (a b : CodexAccount),
        codexSortValue sortBy a = none → codexSortValue sortBy b ≠ none →
        0 < codexSortCompare sortBy dir a b) ∧
    (∀ sortBy : String, sortBy = "weekly" ∨ sortBy = "hourly" →
      ∀ (a b : CodexAccount) (p : ℚ),
        codexSortValue sortBy a = none → codexSortValue sortBy b = some p →
        (-1 : ℚ) < p →
        0 < codexSortCompare sortBy "desc" a b ∧
        codexSortCompare sortBy "asc" a b < 0) ∧
    (∀ a : CodexAccount, codexSortValue "created_at" a ≠ none) := by
  have hwr : ∀ (dir : String) (a b : CodexAccount),
      codexSortCompare "weekly_reset" dir a b =
        (match a.quota.bind (·.weekly_reset_time),
            b.quota.bind (·.weekly_reset_time) with
        | none, none => (0 : ℚ)
        | none, some _ => 1
        | some _, none => -1
        | some x, some y => if dir = "desc" then y - x else x - y) :=
    fun _ _ _ => rfl
  have hhr : ∀ (dir : String) (a b : CodexAccount),
      codexSortCompare "hourly_reset" dir a b =
        (match a.quota.bind (·.hourly_reset_time),
            b.quota.bind (·.hourly_reset_time) with
        | none, none => (0 : ℚ)
        | none, some _ => 1
        | some _, none => -1
        | some x, some y => if dir = "desc" then y - x else x - y) :=
    fun _ _ _ => rfl
  have hwq : ∀ (dir : String) (a b : CodexAccount),
      codexSortCompare "weekly" dir a b =
        (if dir = "desc" then
          ((b.quota.bind (·.weekly_percentage)).getD (-1)) -
            ((a.quota.bind (·.weekly_percentage)).getD (-1))
        else
          ((a.quota.bind (·.weekly_percentage)).getD (-1)) -
            ((b.quota.bind (·.weekly_percentage)).getD (-1))) :=
    fun _ _ _ => rfl
  have hhq : ∀ (dir : String) (a b : CodexAccount),
      codexSortCompare "hourly" dir a b =
        (if dir = "desc" then
          ((b.quota.bind (·.hourly_percentage)).getD (-1)) -
            ((a.quota.bind (·.hourly_percentage)).getD (-1))
        else
          ((a.quota.bind (·.hourly_percentage)).getD (-1)) -
            ((b.quota.bind (·.hourly_percentage)).getD (-1))) :=
    fun _ _ _ => rfl
  refine ⟨?_, ?_, ?_⟩
  · rintro sortBy (rfl | rfl) dir a b ha hb
    · replace ha : a.quota.bind (·.weekly_reset_time) = none := ha
      replace hb : b.quota.bind (·.weekly_reset_time) ≠ none := hb
      obtain ⟨y, hy⟩ := Option.ne_none_iff_exists'.mp hb
      rw [hwr, ha, hy]
      norm_num
    · replace ha : a.quota.bind (·.hourly_reset_time) = none := ha
      replace hb : b.quota.bind (·.hourly_reset_time) ≠ none := hb
      obtain ⟨y, hy⟩ := Option.ne_none_iff_exists'.mp hb
      rw [hhr, ha, hy]
      norm_num
  · rintro sortBy (rfl | rfl) a b p ha hb hp
    · replace ha : a.quota.bind (·.weekly_percentage) = none := ha
      replace hb : b.quota.bind (·.weekly_percentage) = some p := hb
      constructor
      · rw [hwq, if_pos rfl, ha, hb]
        simp only [Option.getD_none, Option.getD_some]
        linarith
      · rw [hwq, if_neg (by decide), ha, hb]
        simp only [Option.getD_none, Option.getD_some]
        linarith
    · replace ha : a.quota.bind (·.hourly_percentage) = none := ha
      replace hb : b.quota.bind (·.hourly_percentage) = some p := hb
      constructor
      · rw [hhq, if_pos rfl, ha, hb]
        simp only [Option.getD_none, Option.getD_some]
        linarith
      · rw [hhq, if_neg (by decide), ha, hb]
        simp only [Option.getD_none, Option.getD_some]
        linarith
  · intro a
    simp [codexSortValue]

/-- Witness for `codexSort_nulls_spec` at concrete accounts: a missing
weekly reset time sorts last in both directions, and a missing weekly
percentage sorts last descending but first ascending against percentage
50. -/
theorem codexSort_nulls_witness :
    (0 < codexSortCompare "weekly_reset" "asc"
      { id := "a", email := "a@x" }
      { id := "b", email := "b@x",
        quota := some { weekly_reset_time := some 100 } } ∧
     0 < codexSortCompare "weekly_reset" "desc"
      { id := "a", email := "a@x" }
      { id := "b", email := "b@x",
        quota := some { weekly_reset_time := some 100 } }) ∧
    (0 < codexSortCompare "weekly" "desc"
      { id := "a", email := "a@x" }
      { id := "b", email := "b@x",
        quota := some { weekly_percentage := some 50 } } ∧
     codexSortCompare "weekly" "asc"
      { id := "a", email := "a@x" }
      { id := "b", email := "b@x",
        quota := some { weekly_percentage := some 50 } } < 0) := by
  constructor
  · constructor
    · exact codexSort_nulls_spec.1 "weekly_reset" (Or.inl rfl) "asc" _ _
        (by decide) (by decide)
    · exact codexSort_nulls_spec.1 "weekly_reset" (Or.inl rfl) "desc" _ _
        (by decide) (by decide)
  · exact codexSort_nulls_spec.2.1 "weekly" (Or.inl rfl) _ _ 50
      (by decide) (by decide) (by norm_num)

/-! Lemmas about the tag-grouping fold. -/

theorem lookup_pushToGroup (g : List (String × List CodexAccount))
    (k : String) (a : CodexAccount) (t : String) :
    List.lookup t (pushToGroup g k a) =
      if t = k then some ((List.lookup t g).getD [] ++ [a])
      else List.lookup t g := by
  induction g with
  | nil =>
      by_cases h : t = k
      · simp [pushToGroup, List.lookup, h]
      · simp [pushToGroup, List.lookup, h,
          beq_eq_false_iff_ne.mpr h]
  | cons e rest ih =>
      obtain ⟨k', l⟩ := e
      by_cases hk : k' = k
      · subst hk
        by_cases h : t = k'
        · simp [pushToGroup, List.lookup, h, beq_iff_eq.mpr h]
        · simp [pushToGroup, List.lookup, h, beq_eq_false_iff_ne.mpr h]
      · by_cases h : t = k'
        · have htk : ¬ t = k := fun hc => hk (h.symm.trans hc)
          simp [pushToGroup, hk, List.lookup, beq_iff_eq.mpr h, htk]
        · have hb : (t == k') = false := beq_eq_false_iff_ne.mpr h
          simp [pushToGroup, hk, List.lookup, hb, ih]

theorem lookup_foldTags (tags : List String)
    (g : List (String × List CodexAccount)) (a : CodexAccount) (t : String) :
    List.lookup t (tags.foldl (fun g tag => pushToGroup g tag a) g) =
      if tags.count t = 0 then List.lookup t g
      else some ((List.lookup t g).getD [] ++
        List.replicate (tags.count t) a) := by
  induction tags generalizing g with
  | nil => simp
  | cons tag rest ih =>
      simp only [List.foldl_cons]
      rw [ih]
      by_cases h : tag = t
      · have hc : List.count t (tag :: rest) = List.count t rest + 1 := by
          simp [List.count_cons, h]
        rw [hc, lookup_pushToGroup, if_pos h.symm,
          if_neg (Nat.succ_ne_zero _)]
        by_cases hr : List.count t rest = 0
        · rw [if_pos hr, hr]
          simp
        · rw [if_neg hr]
          simp only [Option.getD_some]
          rw [List.append_assoc,
            show [a] ++ List.replicate (List.count t rest) a
                = List.replicate (List.count t rest + 1) a by
              simp [List.replicate_succ]]
      · have hc : List.count t (tag :: rest) = List.count t rest := by
          have h' : ¬ t = tag := fun hh => h hh.symm
          simp [List.count_cons, h']
        have hpush : List.lookup t (pushToGroup g tag a) = List.lookup t g := by
          rw [lookup_pushToGroup, if_neg (fun hh => h hh.symm)]
        rw [hpush, hc]

theorem lookup_groupStep (f : List String)
    (g : List (String × List CodexAccount)) (a : CodexAccount) (t : String) :
    List.lookup t (groupStep f g a) =
      if bucketContrib f a t = [] then List.lookup t g
      else some ((List.lookup t g).getD [] ++ bucketContrib f a t) := by
  unfold groupStep bucketContrib
  by_cases hm : (matchedTagsOf f a).isEmpty
  · rw [if_pos hm, if_pos hm, lookup_pushToGroup]
    by_cases ht : t = untaggedKey
    · simp [ht]
    · simp [ht]
  · rw [if_neg hm, if_neg hm, lookup_foldTags]
    by_cases hc : List.count t (matchedTagsOf f a) = 0
    · simp [hc]
    · have hrep : List.replicate (List.count t (matchedTagsOf f a)) a ≠ [] := by
        intro hx
        exact hc (by simpa using congrArg List.length hx)
      simp [hc, hrep]

theorem lookup_groupFold (f : List String) (accs : List CodexAccount)
    (g : List (String × List CodexAccount)) (t : String) :
    List.lookup t (accs.foldl (groupStep f) g) =
      if bucketContents f accs t = [] then List.lookup t g
      else some ((List.lookup t g).getD [] ++ bucketContents f accs t) := by
  induction accs generalizing g with
  | nil => simp [bucketContents]
  | cons a rest ih =>
      have hcons : bucketContents f (a :: rest) t =
          bucketContrib f a t ++ bucketContents f rest t := by
        simp [bucketContents]
      simp only [List.foldl_cons]
      rw [ih, hcons, lookup_groupStep]
      by_cases hca : bucketContrib f a t = []
      · simp [hca]
      · by_cases hcr : bucketContents f rest t = []
        · simp [hca, hcr]
        · have hne : bucketContrib f a t ++ bucketContents f rest t ≠ [] := by
            simp [hca]
          simp only [hne, if_false, hcr, if_false, Option.getD_some, hca]
          rw [List.append_assoc]

theorem pushToGroup_cons_eq (rest : List (String × List CodexAccount))
    (k' : String) (l : List CodexAccount) (k : String) (a : CodexAccount)
    (h : k' = k) :
    pushToGroup ((k', l) :: rest) k a = (k', l ++ [a]) :: rest := by
  simp [pushToGroup, h]

theorem pushToGroup_cons_ne (rest : List (String × List CodexAccount))
    (k' : String) (l : List CodexAccount) (k : String) (a : CodexAccount)
    (h : ¬ k' = k) :
    pushToGroup ((k', l) :: rest) k a = (k', l) :: pushToGroup rest k a := by
  simp [pushToGroup, h]

theorem mem_keys_pushToGroup (g : List (String × List CodexAccount))
    (k : String) (a : CodexAccount) (x : String) :
    x ∈ (pushToGroup g k a).map Prod.fst ↔
      x ∈ g.map Prod.fst ∨ x = k := by
  induction g with
  | nil => simp [pushToGroup]
  | cons e rest ih =>
      obtain ⟨k', l⟩ := e
      by_cases hk : k' = k
      · subst hk
        rw [pushToGroup_cons_eq rest k' l k' a rfl]
        simp
        tauto
      · rw [pushToGroup_cons_ne rest k' l k a hk]
        simp [ih]
        tauto

theorem nodupKeys_pushToGroup (g : List (String × List CodexAccount))
    (k : String) (a : CodexAccount)
    (h : (g.map Prod.fst).Nodup) : ((pushToGroup g k a).map Prod.fst).Nodup := by
  induction g with
  | nil => simp [pushToGroup]
  | cons e rest ih =>
      obtain ⟨k', l⟩ := e
      simp only [List.map_cons, List.nodup_cons] at h
      by_cases hk : k' = k
      · subst hk
        rw [pushToGroup_cons_eq rest k' l k' a rfl]
        simp only [List.map_cons, List.nodup_cons]
        exact ⟨h.1, h.2⟩
      · rw [pushToGroup_cons_ne rest k' l k a hk]
        simp only [List.map_cons, List.nodup_cons]
        refine ⟨?_, ih h.2⟩
        intro hmem
        rcases (mem_keys_pushToGroup rest k a k').mp hmem with hin | heq
        · exact h.1 hin
        · exact hk heq

theorem nodupKeys_groupStep (f : List String)
    (g : List (String × List CodexAccount)) (a : CodexAccount)
    (h : (g.map Prod.fst).Nodup) :
    ((groupStep f g a).map Prod.fst).Nodup := by
  unfold groupStep
  by_cases hm : (matchedTagsOf f a).isEmpty
  · rw [if_pos hm]
    exact nodupKeys_pushToGroup g untaggedKey a h
  · rw [if_neg hm]
    generalize matchedTagsOf f a = tags
    induction tags generalizing g with
    | nil => exact h
    | cons tag rest ih =>
        simp only [List.foldl_cons]
        exact ih _ (nodupKeys_pushToGroup g tag a h)

theorem nodupKeys_groupFold (f : List String) (accs : List CodexAccount)
    (g : List (String × List CodexAccount))
    (h : (g.map Prod.fst).Nodup) :
    ((accs.foldl (groupStep f) g).map Prod.fst).Nodup := by
  induction accs generalizing g with
  | nil => exact h
  | cons a rest ih =>
      simp only [List.foldl_cons]
      exact ih _ (nodupKeys_groupStep f g a h)

theorem mem_iff_lookup_of_nodupKeys (g : List (String × List CodexAccount))
    (hnd : (g.map Prod.fst).Nodup) (t : String) (l : List CodexAccount) :
    (t, l) ∈ g ↔ List.lookup t g = some l := by
  induction g with
  | nil => simp [List.lookup]
  | cons e rest ih =>
      obtain ⟨k, v⟩ := e
      simp only [List.map_cons, List.nodup_cons] at hnd
      by_cases h : t = k
      · subst h
        have hl : List.lookup t ((t, v) :: rest) = some v := by
          simp [List.lookup]
        rw [hl]
        constructor
        · intro hmem
          rcases List.mem_cons.mp hmem with heq | hmem'
          · obtain ⟨-, rfl⟩ := Prod.mk.injEq .. ▸ heq
            rfl
          · exact absurd (List.mem_map_of_mem Prod.fst hmem') hnd.1
        · intro hsome
          have hv : v = l := Option.some.inj hsome
          subst hv
          exact List.mem_cons_self _ _
      · have hb : (t == k) = false := beq_eq_false_iff_ne.mpr h
        have hl : List.lookup t ((k, v) :: rest) = List.lookup t rest := by
          simp [List.lookup, hb]
        rw [hl, ← ih hnd.2]
        constructor
        · intro hmem
          rcases List.mem_cons.mp hmem with heq | hmem'
          · exact absurd (congrArg Prod.fst heq) h
          · exact hmem'
        · exact fun hmem => List.mem_cons_of_mem _ hmem

/-- C6 counterexample: with grouping on and no tag filter, an account whose
two raw tags `"x"` and `"X"` both normalize to `"x"` is pushed into the `"x"`
bucket twice, so it does not appear exactly once in the bucket of its
normalized tag. -/
theorem groupedAccounts_once_counterexample :
    groupedAccounts true [] [tagsDup] = [("x", [tagsDup, tagsDup])] ∧
    List.count tagsDup [tagsDup, tagsDup] = 2 ∧ (2 : ℕ) ≠ 1 := by
  refine ⟨by decide, by decide, by decide⟩

/-- C6 (amended): with group-by-tag on and no active tag filter, the bucket
list contains the entry `(t, l)` exactly when `l` is non-empty and equal to
the concatenation, in account order, of one copy of each account per
occurrence of `t` among its normalized tags (so an account appears once per
matching tag occurrence — fan-out over its distinct tags, duplicated when
two raw tags normalize to the same value); accounts with no (non-empty
normalized) tags go to the single untagged bucket; and the bucket keys are
ordered with the untagged bucket after every other bucket and the remaining
buckets in increasing key order. -/
theorem groupedAccounts_spec (accs : List CodexAccount) :
    (∀ (t : String) (l : List CodexAccount),
      (t, l) ∈ groupedAccounts true [] accs ↔
        (l = bucketContents [] accs t ∧ l ≠ [])) ∧
    (∀ a ∈ accs, matchedTagsOf [] a = [] →
      a ∈ bucketContents [] accs untaggedKey) ∧
    List.Pairwise (fun x y : String =>
        (y = untaggedKey ∧ x ≠ untaggedKey) ∨
        (x ≠ untaggedKey ∧ y ≠ untaggedKey ∧ x < y))
      ((groupedAccounts true [] accs).map Prod.fst) := by
  have hga : groupedAccounts true [] accs =
      (accs.foldl (groupStep []) []).insertionSort groupEntryLE := rfl
  have hperm : List.Perm
      ((accs.foldl (groupStep []) []).insertionSort groupEntryLE)
      (accs.foldl (groupStep []) []) := List.perm_insertionSort _ _
  have hnd : ((accs.foldl (groupStep []) []).map Prod.fst).Nodup :=
    nodupKeys_groupFold [] accs [] (by simp)
  have hlook : ∀ t, List.lookup t (accs.foldl (groupStep []) []) =
      if bucketContents [] accs t = [] then none
      else some (bucketContents [] accs t) := by
    intro t
    rw [lookup_groupFold]
    by_cases hb : bucketContents [] accs t = []
    · simp [hb, List.lookup]
    · simp [hb, List.lookup]
  refine ⟨?_, ?_, ?_⟩
  · intro t l
    rw [hga, hperm.mem_iff, mem_iff_lookup_of_nodupKeys _ hnd, hlook]
    by_cases hb : bucketContents [] accs t = []
    · rw [if_pos hb]
      simp only [hb]
      constructor
      · intro hx
        exact absurd hx (by simp)
      · rintro ⟨rfl, hne⟩
        exact absurd rfl hne
    · rw [if_neg hb]
      constructor
      · intro hx
        have := Option.some.inj hx
        exact ⟨this.symm, this.symm ▸ hb⟩
      · rintro ⟨rfl, -⟩
        rfl
  · intro a ha hm
    unfold bucketContents
    refine List.mem_flatMap.mpr ⟨a, ha, ?_⟩
    unfold bucketContrib
    rw [hm]
    simp
  · rw [hga]
    have hsorted : List.Pairwise groupEntryLE
        ((accs.foldl (groupStep []) []).insertionSort groupEntryLE) :=
      List.sorted_insertionSort groupEntryLE _
    have hndsorted :
        (((accs.foldl (groupStep []) []).insertionSort
            groupEntryLE).map Prod.fst).Nodup :=
      ((hperm.map Prod.fst).nodup_iff).mpr hnd
    have hne : List.Pairwise (fun x y : String × List CodexAccount =>
        x.1 ≠ y.1) ((accs.foldl (groupStep []) []).insertionSort
          groupEntryLE) := by
      have := (List.pairwise_map (f := Prod.fst)).mp hndsorted
      exact this
    refine (List.pairwise_map (f := Prod.fst)).mpr ?_
    refine (hsorted.and hne).imp ?_
    rintro x y ⟨hle, hxy⟩
    unfold groupEntryLE at hle
    by_cases hx : x.1 = untaggedKey
    · rw [if_pos hx] at hle
      exact absurd (hx.trans hle.symm) hxy
    · rw [if_neg hx] at hle
      rcases hle with hy | hxley
      · exact Or.inl ⟨hy, hx⟩
      · by_cases hy : y.1 = untaggedKey
        · exact Or.inl ⟨hy, hx⟩
        · exact Or.inr ⟨hx, hy, lt_of_le_of_ne hxley hxy⟩

/-- C7: the guarded-invariant claim fails on the code.  Opening the
add-modal on the oauth tab fires `startLogin`; closing the modal before it
resolves resets `oauthActiveRef` (via `resetAddModalState`) but cannot
cancel the login because no login id is held yet; reopening the modal fires
a second `startLogin`; when both resolve, each `.then` chain invokes
`completeLogin`, leaving two completeLogin calls in flight at once. -/
theorem oauth_double_complete_trace :
    (runOauth [.openModal, .effectFire, .closeModal, .openModal, .effectFire,
      .startResolve "login-1" "https://auth/1",
      .startResolve "login-2" "https://auth/2"]).pendingComplete = 2 ∧
    (runOauth [.openModal, .effectFire, .closeModal, .openModal, .effectFire,
      .startResolve "login-1" "https://auth/1",
      .startResolve "login-2" "https://auth/2"]).startCount = 2 ∧
    ¬ (runOauth [.openModal, .effectFire, .closeModal, .openModal,
      .effectFire, .startResolve "login-1" "https://auth/1",
      .startResolve "login-2" "https://auth/2"]).pendingComplete ≤ 1 := by
  refine ⟨by decide, by decide, by decide⟩

/-- Within a single opening of the add-modal (no close or tab change), the
`oauthActiveRef`/`oauthCompletingRef` guards do maintain the invariant: at
most one `startLogin` and at most one `completeLogin` call is pending at any
time, and a completion is pending only while `oauthCompletingRef` is set. -/
theorem oauth_single_session_invariant (s : OauthState)
    (hs : OauthSessionReachable s) :
    s.pendingStart ≤ 1 ∧ s.pendingComplete ≤ 1 ∧
    (1 ≤ s.pendingStart → s.active = true) ∧
    (1 ≤ s.pendingComplete → s.completing = true) ∧
    (1 ≤ s.pendingStart → s.pendingComplete = 0) ∧
    ((s.prepareError = true ∨ s.completeError = true) →
      s.pendingStart = 0 ∧ s.pendingComplete = 0) := by
  induction hs with
  | opened => decide
  | step e hs he ih =>
      obtain ⟨h1, h2, h3, h4, h5, h6⟩ := ih
      rename_i s
      cases e with
      | effectFire =>
          simp only [oauthStep]
          split_ifs with hg
          · unfold prepareOauthUrl
            split_ifs with hmt hA hC
            · exact ⟨h1, h2, h3, h4, h5, h6⟩
            · exact ⟨h1, h2, h3, h4, h5, h6⟩
            · have hps : s.pendingStart = 0 := by
                by_contra hc
                exact hA (h3 (by omega))
              have hpc : s.pendingComplete = 0 := by
                by_contra hc
                exact hC (h4 (by omega))
              simp [hps, hpc]
            · exact ⟨h1, h2, h3, h4, h5, h6⟩
          · exact ⟨h1, h2, h3, h4, h5, h6⟩
      | startResolve loginId url =>
          simp only [oauthStep]
          split_ifs with hz
          · exact ⟨h1, h2, h3, h4, h5, h6⟩
          · have hpc : s.pendingComplete = 0 := h5 (by omega)
            have hone : s.pendingStart = 1 := by omega
            have hpe : s.prepareError = false := by
              cases hp : s.prepareError
              · rfl
              · exact absurd (h6 (Or.inl hp)).1 (by omega)
            have hce : s.completeError = false := by
              cases hp : s.completeError
              · rfl
              · exact absurd (h6 (Or.inr hp)).1 (by omega)
            simp [hpc, hone, hpe, hce]
      | startReject =>
          simp only [oauthStep]
          split_ifs with hz
          · exact ⟨h1, h2, h3, h4, h5, h6⟩
          · have hpc : s.pendingComplete = 0 := h5 (by omega)
            have hone : s.pendingStart = 1 := by omega
            simp [hpc, hone]
      | completeResolve =>
          simp only [oauthStep]
          split_ifs with hz
          · exact ⟨h1, h2, h3, h4, h5, h6⟩
          · have hps : s.pendingStart = 0 := by
              by_contra hc
              exact hz (h5 (by omega))
            have hone : s.pendingComplete = 1 := by omega
            simp [hps, hone]
      | completeReject timedOut =>
          simp only [oauthStep]
          split_ifs with hz
          · exact ⟨h1, h2, h3, h4, h5, h6⟩
          · have hps : s.pendingStart = 0 := by
              by_contra hc
              exact hz (h5 (by omega))
            have hone : s.pendingComplete = 1 := by omega
            simp [hps, hone]
      | retryClick =>
          simp only [oauthStep]
          split_ifs with hg
          · obtain ⟨hps, hpc⟩ := h6 (by tauto)
            unfold prepareOauthUrl
            simp [hg.1, hg.2.1, hps, hpc]
          · exact ⟨h1, h2, h3, h4, h5, h6⟩
      | openModal => exact absurd rfl he.1
      | closeModal => exact absurd rfl he.2.1
      | tabAway => exact absurd rfl he.2.2.1
      | tabBack => exact absurd rfl he.2.2.2

/-- Witness for `oauth_single_session_invariant` at a concrete reachable
state: after open, prepare and `startLogin` resolution, exactly one
completion is pending. -/
theorem oauth_single_session_invariant_witness :
    (oauthStep (oauthStep (oauthStep {} .openModal) .effectFire)
      (.startResolve "login-1" "https://auth/1")).pendingComplete ≤ 1 :=
  (oauth_single_session_invariant _
    (OauthSessionReachable.step _
      (OauthSessionReachable.step _ OauthSessionReachable.opened
        (by refine ⟨?_, ?_, ?_, ?_⟩ <;> decide))
      (by refine ⟨?_, ?_, ?_, ?_⟩ <;> decide))).2.1

/-- Witness for `groupedAccounts_spec`: an account tagged `["x", "y"]`
appears in both the `"x"` bucket and the `"y"` bucket. -/
theorem groupedAccounts_spec_witness :
    ("x", [tagsXY]) ∈ groupedAccounts true [] [tagsXY] ∧
    ("y", [tagsXY]) ∈ groupedAccounts true [] [tagsXY] := by
  constructor
  · exact ((groupedAccounts_spec [tagsXY]).1 "x" [tagsXY]).mpr
      ⟨by decide, by decide⟩
  · exact ((groupedAccounts_spec [tagsXY]).1 "y" [tagsXY]).mpr
      ⟨by decide, by decide⟩

/-- Witness for `buildCreditMetrics_total_spec` at a concrete input with
`used > total`, a negative `left`, and a non-finite `total`. -/
theorem buildCreditMetrics_total_witness :
    (buildCreditMetrics (some (.fin 150)) (some (.fin 100))
      (some (.fin (-2)))).used = 150 ∧
    (buildCreditMetrics (some (.fin 150)) (some .nonfinite)
      (some (.fin (-2)))).total = 0 ∧
    (buildCreditMetrics (some (.fin 150)) (some (.fin 100))
      (some (.fin (-2)))).left = -2 := by
  refine ⟨?_, ?_, ?_⟩
  · exact (buildCreditMetrics_total_spec (some (.fin 150)) (some (.fin 100))
      (some (.fin (-2)))).2.1 150 rfl
  · refine (buildCreditMetrics_total_spec (some (.fin 150)) (some .nonfinite)
      (some (.fin (-2)))).2.2.2.2.1 ?_
    intro q h
    simp at h
  · exact (buildCreditMetrics_total_spec (some (.fin 150)) (some (.fin 100))
      (some (.fin (-2)))).2.2.2.2.2.1 (-2) rfl

end CockpitTools
